import Mathlib

/-!
Shallow embedding of the assessment recommendation engine of this
repository (`src/model.py` and `src/app.py`): text normalization
(`AssessmentRecommender.preprocess_text`), TF-IDF vector-space fitting
(`fit`), cosine-similarity ranking (`get_recommendations`), persistence
(`save_model` / `load_model`) and the Flask-side glue (`load_model`,
`/api/recommend`).  Machine floats are idealized as real numbers; the
third-party library calls (numpy argsort, sklearn TfidfVectorizer,
cosine_similarity, joblib, NLTK) are embedded by their documented
behaviour on the inputs this program feeds them.
-/

namespace AssessmentRec

/-! ### Characters

`preprocess_text` lower-cases with `str.lower` and then deletes every
character outside the regex class `[a-zA-Z\s]`.  The relevant inputs are
ASCII, so letters are embedded as the two ASCII letter ranges and `\s`
as the six ASCII whitespace characters matched by the Python pattern. -/

/-- The character class kept by `re.sub(r'[^a-zA-Z\s]', '', text)`:
an ASCII letter. -/
def isLetterChar (c : Char) : Bool :=
  (97 ≤ c.toNat && c.toNat ≤ 122) || (65 ≤ c.toNat && c.toNat ≤ 90)

/-- The ASCII fragment of the Python regex class `\s`:
space, tab, newline, vertical tab, form feed, carriage return. -/
def isSpaceChar (c : Char) : Bool :=
  c.toNat == 32 || (9 ≤ c.toNat && c.toNat ≤ 13)

/-! ### Splitting a character list into maximal runs

Both NLTK word tokenization (on the letters-and-spaces strings this
program feeds it) and the `TfidfVectorizer` token pattern `\w\w+` reduce
to taking maximal runs of non-separator characters. -/

/-- Helper for `runs`: `acc` is the (non-separator) run read so far. -/
def runsAux (sep : Char → Bool) : List Char → List Char → List (List Char)
  | [], acc => if acc.isEmpty then [] else [acc]
  | c :: cs, acc =>
    if sep c then
      if acc.isEmpty then runsAux sep cs [] else acc :: runsAux sep cs []
    else
      runsAux sep cs (acc ++ [c])

/-- Maximal runs of characters for which `sep` is false, in order. -/
def runs (sep : Char → Bool) (cs : List Char) : List (List Char) :=
  runsAux sep cs []

/-- `' '.join(tokens)` from `preprocess_text`. -/
def joinSpace : List (List Char) → List Char
  | [] => []
  | [t] => t
  | t :: ts => t ++ ' ' :: joinSpace ts

/-! ### Stop-word lists

`nltk_stopwords` is `nltk.corpus.stopwords.words('english')`.  Entries
containing an apostrophe are omitted: `preprocess_text` tokenizes only
after deleting every non-letter character, so no token ever contains an
apostrophe and those entries can never match. -/

/-- The apostrophe-free entries of the NLTK English stop-word list. -/
def nltk_stopwords : List String :=
  ["i", "me", "my", "myself", "we", "our", "ours", "ourselves", "you",
   "your", "yours", "yourself", "yourselves", "he", "him", "his",
   "himself", "she", "her", "hers", "herself", "it", "its", "itself",
   "they", "them", "their", "theirs", "themselves", "what", "which",
   "who", "whom", "this", "that", "these", "those", "am", "is", "are",
   "was", "were", "be", "been", "being", "have", "has", "had", "having",
   "do", "does", "did", "doing", "a", "an", "the", "and", "but", "if",
   "or", "because", "as", "until", "while", "of", "at", "by", "for",
   "with", "about", "against", "between", "into", "through", "during",
   "before", "after", "above", "below", "to", "from", "up", "down",
   "in", "out", "on", "off", "over", "under", "again", "further",
   "then", "once", "here", "there", "when", "where", "why", "how",
   "all", "any", "both", "each", "few", "more", "most", "other", "some",
   "such", "no", "nor", "not", "only", "own", "same", "so", "than",
   "too", "very", "s", "t", "can", "will", "just", "don", "should",
   "now", "d", "ll", "m", "o", "re", "ve", "y", "ain", "aren",
   "couldn", "didn", "doesn", "hadn", "hasn", "haven", "isn", "ma",
   "mightn", "mustn", "needn", "shan", "shouldn", "wasn", "weren",
   "won", "wouldn"]

/-- The NLTK stop words as character lists (tokens are `List Char`). -/
def nltk_stopword_tokens : List (List Char) :=
  nltk_stopwords.map String.data

/-- `sklearn.feature_extraction.text.ENGLISH_STOP_WORDS`, used by the
vectorizer because of `stop_words='english'` (`model.py` line 20). -/
def sklearn_stop_words : List String :=
  ["a", "about", "above", "across", "after", "afterwards", "again",
   "against", "all", "almost", "alone", "along", "already", "also",
   "although", "always", "am", "among", "amongst", "amoungst", "amount",
   "an", "and", "another", "any", "anyhow", "anyone", "anything",
   "anyway", "anywhere", "are", "around", "as", "at", "back", "be",
   "became", "because", "become", "becomes", "becoming", "been",
   "before", "beforehand", "behind", "being", "below", "beside",
   "besides", "between", "beyond", "bill", "both", "bottom", "but",
   "by", "call", "can", "cannot", "cant", "co", "con", "could",
   "couldnt", "cry", "de", "describe", "detail", "do", "done", "down",
   "due", "during", "each", "eg", "eight", "either", "eleven", "else",
   "elsewhere", "empty", "enough", "etc", "even", "ever", "every",
   "everyone", "everything", "everywhere", "except", "few", "fifteen",
   "fifty", "fill", "find", "fire", "first", "five", "for", "former",
   "formerly", "forty", "found", "four", "from", "front", "full",
   "further", "get", "give", "go", "had", "has", "hasnt", "have", "he",
   "hence", "her", "here", "hereafter", "hereby", "herein", "hereupon",
   "hers", "herself", "him", "himself", "his", "how", "however",
   "hundred", "i", "ie", "if", "in", "inc", "indeed", "interest",
   "into", "is", "it", "its", "itself", "keep", "last", "latter",
   "latterly", "least", "less", "ltd", "made", "many", "may", "me",
   "meanwhile", "might", "mill", "mine", "more", "moreover", "most",
   "mostly", "move", "much", "must", "my", "myself", "name", "namely",
   "neither", "never", "nevertheless", "next", "nine", "no", "nobody",
   "none", "noone", "nor", "not", "nothing", "now", "nowhere", "of",
   "off", "often", "on", "once", "one", "only", "onto", "or", "other",
   "others", "otherwise", "our", "ours", "ourselves", "out", "over",
   "own", "part", "per", "perhaps", "please", "put", "rather", "re",
   "same", "see", "seem", "seemed", "seeming", "seems", "serious",
   "several", "she", "should", "show", "side", "since", "sincere",
   "six", "sixty", "so", "some", "somehow", "someone", "something",
   "sometime", "sometimes", "somewhere", "still", "such", "system",
   "take", "ten", "than", "that", "the", "their", "them", "themselves",
   "then", "thence", "there", "thereafter", "thereby", "therefore",
   "therein", "thereupon", "these", "they", "thick", "thin", "third",
   "this", "those", "though", "three", "through", "throughout", "thru",
   "thus", "to", "together", "too", "top", "toward", "towards",
   "twelve", "twenty", "two", "un", "under", "until", "up", "upon",
   "us", "very", "via", "was", "we", "well", "were", "what", "whatever",
   "when", "whence", "whenever", "where", "whereafter", "whereas",
   "whereby", "wherein", "whereupon", "wherever", "whether", "which",
   "while", "whither", "who", "whoever", "whole", "whom", "whose",
   "why", "will", "with", "within", "without", "would", "yet", "you",
   "your", "yours", "yourself", "yourselves"]

/-- The sklearn stop words as character lists. -/
def sklearn_stop_tokens : List (List Char) :=
  sklearn_stop_words.map String.data

/-! ### `AssessmentRecommender.preprocess_text` (`model.py` lines 27-43) -/

/-- `nltk.tokenize.word_tokenize`, on the strings this program feeds it
(only ASCII letters and whitespace remain after the regex deletion):
splitting on whitespace. -/
def word_tokenize (cs : List Char) : List (List Char) :=
  runs isSpaceChar cs

/-- `preprocess_text`: lower-case, delete every character outside
`[a-zA-Z\s]`, tokenize, drop NLTK stop words, re-join with spaces. -/
def preprocess_text (s : String) : String :=
  let lowered := s.data.map Char.toLower
  let stripped := lowered.filter (fun c => isLetterChar c || isSpaceChar c)
  let tokens := word_tokenize stripped
  let kept := tokens.filter (fun t => !(nltk_stopword_tokens.contains t))
  String.mk (joinSpace kept)

/-! ### The TfidfVectorizer analyzer

`TfidfVectorizer(stop_words='english', max_features=5000,
ngram_range=(1, 2))` with default settings otherwise: lower-case, token
pattern `\w\w+`, stop-word removal on unigrams, then unigrams plus
bigrams. -/

/-- A vocabulary term (unigram or space-joined bigram). -/
abbrev Term := List Char

/-- A character matching the regex class `\w` (ASCII fragment: the
inputs the vectorizer sees here contain only letters and spaces). -/
def isWordChar (c : Char) : Bool :=
  isLetterChar c || (48 ≤ c.toNat && c.toNat ≤ 57) || c.toNat == 95

/-- The vectorizer tokenizer: lower-case, then the maximal matches of
`\w\w+`, i.e. maximal word-character runs of length at least two. -/
def sklearn_tokenize (cs : List Char) : List Term :=
  (runs (fun c => !(isWordChar c)) (cs.map Char.toLower)).filter
    (fun t => 2 ≤ t.length)

/-- Stop-word removal applied by the vectorizer to unigram tokens. -/
def sklearn_remove_stop (ts : List Term) : List Term :=
  ts.filter (fun t => !(sklearn_stop_tokens.contains t))

/-- Adjacent bigrams, space-joined, in order of occurrence. -/
def bigrams : List Term → List Term
  | a :: b :: rest => (a ++ ' ' :: b) :: bigrams (b :: rest)
  | _ => []

/-- `ngram_range=(1, 2)`: the unigrams followed by the bigrams. -/
def word_ngrams (ts : List Term) : List Term :=
  ts ++ bigrams ts

/-- The full analyzer of the fitted vectorizer applied to one string. -/
def analyze (s : String) : List Term :=
  word_ngrams (sklearn_remove_stop (sklearn_tokenize s.data))

/-! ### Vocabulary and TF-IDF weights -/

/-- Document frequency of a term: in how many documents it occurs. -/
def docFreq (docs : List (List Term)) (t : Term) : ℕ :=
  (docs.filter (fun d => d.contains t)).length

/-- Corpus-wide raw count of a term, the quantity `max_features` ranks
by. -/
def totalFreq (docs : List (List Term)) (t : Term) : ℕ :=
  (docs.map (fun d => d.count t)).sum

/-- All distinct terms occurring in the corpus. -/
def rawVocab (docs : List (List Term)) : List Term :=
  docs.flatten.dedup

/-- `max_features=5000` (`model.py` line 21). -/
def max_features : ℕ := 5000

/-- The fitted vocabulary: every distinct term, unless more than
`max_features` occur, in which case the `max_features` terms of highest
corpus frequency are kept (numpy leaves the order among equal
frequencies unspecified; a stable descending sort is used here). -/
def vocabulary (docs : List (List Term)) : List Term :=
  let v := rawVocab docs
  if v.length ≤ max_features then v
  else (v.insertionSort (fun a b => totalFreq docs b ≤ totalFreq docs a)).take
    max_features

/-- Smoothed inverse document frequency (`smooth_idf=True`, the
default): `ln((1 + n) / (1 + df)) + 1`. -/
noncomputable def idf (n df : ℕ) : ℝ :=
  Real.log ((1 + (n : ℝ)) / (1 + (df : ℝ))) + 1

/-- Unnormalized TF-IDF weights of one analyzed text: raw term count
times IDF on vocabulary terms, zero elsewhere (terms unseen at fit time
contribute nothing). -/
noncomputable def rawTfidf (vocab : List Term) (idfW : Term → ℝ)
    (ngrams : List Term) : Term → ℝ :=
  fun t => if t ∈ vocab then (ngrams.count t : ℝ) * idfW t else 0

/-- Dot product of two weight functions over the vocabulary
dimensions. -/
noncomputable def dotV (vocab : List Term) (u v : Term → ℝ) : ℝ :=
  (vocab.map (fun t => u t * v t)).sum

/-- `norm='l2'` (the default): divide by the Euclidean norm.  A zero
vector stays zero (in sklearn a zero norm is replaced by one before
dividing; here division by zero yields zero). -/
noncomputable def l2normalize (vocab : List Term) (v : Term → ℝ) :
    Term → ℝ :=
  fun t => v t / Real.sqrt (dotV vocab v v)

/-- `sklearn.metrics.pairwise.cosine_similarity` on two rows: each row
is re-normalized (zero rows staying zero) and the dot product taken. -/
noncomputable def cosine_similarity (vocab : List Term) (u v : Term → ℝ) :
    ℝ :=
  dotV vocab (l2normalize vocab u) (l2normalize vocab v)

/-! ### Data model -/

/-- One row of the catalog table read by `pd.read_csv`.  Cell values
are `Option String`: `none` is a missing value (`NaN`).  Only the
columns this program reads are carried. -/
structure Record where
  assessmentName : Option String
  jobLevel : Option String
  duration : Option String
  remoteTesting : Option String
deriving DecidableEq, Repr, Inhabited

/-- The fitted state: the vectorizer vocabulary and IDF weights plus
the (row-normalized) TF-IDF document matrix. -/
structure Fitted where
  vocab : List Term
  idfW : Term → ℝ
  tfidf_matrix : List (Term → ℝ)

/-- The `AssessmentRecommender` object: `assessments_df` and the
vectorizer/matrix state (`none` while not fitted). -/
structure Model where
  assessments_df : Option (List Record)
  fitted : Option Fitted

/-- A fresh `AssessmentRecommender()`. -/
def Model.new : Model := ⟨none, none⟩

/-- The Python exceptions this embedding distinguishes. -/
inductive PyErr where
  /-- sklearn `NotFittedError`, raised by `transform` before `fit`. -/
  | notFitted
  /-- sklearn `ValueError: empty vocabulary`, raised by `fit_transform`
  when no document contributes a term. -/
  | emptyVocabulary
  /-- A deserialization failure inside `joblib.load` (or a missing part
  of the loaded bundle). -/
  | unpicklingError
  /-- pandas `iloc` lookup out of range. -/
  | indexError
  /-- Attribute access on `None`. -/
  | attributeError
deriving DecidableEq, Repr

/-- `'combined_features'`: `Assessment Name` and `Job Level`, each with
`fillna('')`, joined by one space (`model.py` lines 51-54). -/
def combined (r : Record) : String :=
  r.assessmentName.getD "" ++ " " ++ r.jobLevel.getD ""

/-- The per-document analysis pipeline of `fit`: build the combined
text field, preprocess it, run the vectorizer analyzer. -/
def analyzeDoc (r : Record) : List Term :=
  analyze (preprocess_text (combined r))

/-- The analyzed corpus. -/
def corpusDocs (csv : List Record) : List (List Term) :=
  csv.map analyzeDoc

/-- The state the vectorizer and matrix reach after a successful
`fit` on `csv`. -/
noncomputable def fitData (csv : List Record) : Fitted :=
  let docs := corpusDocs csv
  let vocab := vocabulary docs
  { vocab := vocab
    idfW := fun t => idf csv.length (docFreq docs t)
    tfidf_matrix := docs.map (fun d =>
      l2normalize vocab
        (rawTfidf vocab (fun t => idf csv.length (docFreq docs t)) d)) }

/-- `AssessmentRecommender.fit` (`model.py` lines 45-62), with the CSV
file contents passed as the record list.  Returns the object state
after the call together with the exception, if one was raised:
`assessments_df` is assigned before `fit_transform` runs, so it is set
even when the vectorizer raises `empty vocabulary` and leaves itself
unfitted. -/
noncomputable def fit (m : Model) (csv : List Record) :
    Model × Option PyErr :=
  if (vocabulary (corpusDocs csv)).isEmpty then
    ({ m with assessments_df := some csv }, some PyErr.emptyVocabulary)
  else
    ({ assessments_df := some csv, fitted := some (fitData csv) }, none)

/-! ### Ranking (`get_recommendations`, `model.py` lines 64-98) -/

/-- `vectorizer.transform([text])`: analyzer, counts restricted to the
fitted vocabulary, IDF weighting, L2 normalization. -/
noncomputable def transform (fd : Fitted) (s : String) : Term → ℝ :=
  l2normalize fd.vocab (rawTfidf fd.vocab fd.idfW (analyze s))

/-- `similarity_scores[0]`: cosine similarity of the (preprocessed and
transformed) query against every document row, in corpus order. -/
noncomputable def similarity_scores (fd : Fitted) (job_description : String) :
    List ℝ :=
  let v := transform fd (preprocess_text job_description)
  fd.tfidf_matrix.map (fun row => cosine_similarity fd.vocab v row)

/-- Index/value pairs `(i, xs[i])`, indices starting at `i0`. -/
def enumFromR (i0 : ℕ) : List ℝ → List (ℕ × ℝ)
  | [] => []
  | x :: xs => (i0, x) :: enumFromR (i0 + 1) xs

/-- The comparison `np.argsort` orders by: ascending value, equal
values by ascending position (numpy's default sort is deterministic;
its tie order is modelled as the stable one). -/
def argsortRel (a b : ℕ × ℝ) : Prop :=
  a.2 < b.2 ∨ (a.2 = b.2 ∧ a.1 ≤ b.1)

noncomputable instance : DecidableRel argsortRel := fun _ _ =>
  inferInstanceAs (Decidable (_ ∨ _))

instance : IsTotal (ℕ × ℝ) argsortRel :=
  ⟨fun a b => by
    rcases lt_trichotomy a.2 b.2 with h | h | h
    · exact Or.inl (Or.inl h)
    · rcases Nat.le_total a.1 b.1 with h1 | h1
      · exact Or.inl (Or.inr ⟨h, h1⟩)
      · exact Or.inr (Or.inr ⟨h.symm, h1⟩)
    · exact Or.inr (Or.inl h)⟩

instance : IsTrans (ℕ × ℝ) argsortRel :=
  ⟨fun a b c hab hbc => by
    rcases hab with h1 | ⟨h1, h1i⟩
    · rcases hbc with h2 | ⟨h2, _⟩
      · exact Or.inl (h1.trans h2)
      · exact Or.inl (lt_of_lt_of_eq h1 h2)
    · rcases hbc with h2 | ⟨h2, h2i⟩
      · exact Or.inl (lt_of_eq_of_lt h1 h2)
      · exact Or.inr ⟨h1.trans h2, h1i.trans h2i⟩⟩

/-- `np.argsort(xs)`: the positions of `xs` sorted by ascending
value. -/
noncomputable def argsort (xs : List ℝ) : List ℕ :=
  (List.insertionSort argsortRel (enumFromR 0 xs)).map Prod.fst

/-- `similarity_scores[0].argsort()[::-1][:top_n]` (`model.py` line
76). -/
noncomputable def top_indices (xs : List ℝ) (top_n : ℕ) : List ℕ :=
  ((argsort xs).reverse).take top_n

/-- The `(idx, similarity_scores[0][idx])` pairs the recommendation
loop iterates over (indices produced by `argsort` are always in range,
so the default value of `getD` is never read). -/
noncomputable def rankedPairs (fd : Fitted) (q : String) (top_n : ℕ) :
    List (ℕ × ℝ) :=
  (top_indices (similarity_scores fd q) top_n).map
    (fun i => (i, (similarity_scores fd q).getD i 0))

/-- The recommendation dictionary assembled for one ranked row
(`model.py` lines 83-96). -/
structure Recommendation where
  id : String
  title : Option String
  description : String
  category : String
  duration : Option String
  skills : List String
  benefits : List String
  suitableFor : List String
  imageUrl : String
  jobLevel : Option String
  remoteTestingAvailable : Bool
  similarity_score : ℝ

/-- One entry of the recommendations list.  `remoteTestingAvailable`
is `assessment['Remote Testing'] == 'Yes'` (`model.py` line 94); a
missing value (`NaN`) compares unequal to `'Yes'` without raising. -/
def mkRec (idx : ℕ) (a : Record) (score : ℝ) : Recommendation :=
  { id := toString idx
    title := a.assessmentName
    description := ""
    category := "Assessment"
    duration := a.duration
    skills := []
    benefits := []
    suitableFor := []
    imageUrl := ""
    jobLevel := a.jobLevel
    remoteTestingAvailable := a.remoteTesting == some "Yes"
    similarity_score := score }

/-- The `for idx in top_indices` loop (`model.py` lines 80-96): look
up row `idx` with `iloc` (raising on an out-of-range index) and append
the assembled dictionary. -/
def buildRecs (df : List Record) :
    List (ℕ × ℝ) → Except PyErr (List Recommendation)
  | [] => .ok []
  | p :: ps =>
    match df.get? p.1 with
    | none => .error PyErr.indexError
    | some a =>
      match buildRecs df ps with
      | .error e => .error e
      | .ok recs => .ok (mkRec p.1 a p.2 :: recs)

/-- `AssessmentRecommender.get_recommendations` (`model.py` lines
64-98).  `transform` raises `NotFittedError` on an unfitted
vectorizer. -/
noncomputable def get_recommendations (m : Model) (job_description : String)
    (top_n : ℕ := 10) : Except PyErr (List Recommendation) :=
  match m.fitted with
  | none => .error PyErr.notFitted
  | some fd =>
    match m.assessments_df with
    | none => .error PyErr.attributeError
    | some df => buildRecs df (rankedPairs fd job_description top_n)

/-! ### Persistence (`save_model` / `load_model`, `model.py` lines
100-117) and the Flask glue (`app.py`) -/

/-- The serialized artifact: either the pickled three-part bundle
(`vectorizer`, `assessments_df`, `tfidf_matrix`) or bytes that fail to
deserialize into those parts. -/
inductive Artifact where
  | bundle (assessments_df : Option (List Record)) (fitted : Option Fitted)
  | corrupt

/-- `save_model`: `joblib.dump` of the three-part dictionary. -/
def save_model (m : Model) : Artifact :=
  Artifact.bundle m.assessments_df m.fitted

/-- A file-system operation performed by persistence code. -/
inductive FsOp where
  | write (path : String) (a : Artifact)
  | rename (src dst : String)

/-- Whether an operation is a rename. -/
def FsOp.isRename : FsOp → Bool
  | FsOp.rename _ _ => true
  | _ => false

/-- The file-system trace of `save_model`: `joblib.dump(model_data,
filepath)` opens `filepath` itself and writes the bundle to it. -/
def save_model_ops (m : Model) (filepath : String) : List FsOp :=
  [FsOp.write filepath (save_model m)]

/-- `AssessmentRecommender.load_model`: `joblib.load` followed by the
three dictionary lookups; any deserialization failure propagates as an
exception. -/
def load_model (a : Artifact) : Except PyErr Model :=
  match a with
  | Artifact.bundle df fd => .ok ⟨df, fd⟩
  | Artifact.corrupt => .error PyErr.unpicklingError

/-- `app.load_model` (`app.py` lines 13-20): if the model file exists
(`file = some artifact`), deserialize it — with no exception handler —
otherwise fit a fresh model on the catalog CSV and save it. -/
noncomputable def app_load_model (file : Option Artifact)
    (csv : List Record) : Except PyErr Model :=
  match file with
  | some a => load_model a
  | none =>
    match fit Model.new csv with
    | (m, none) => .ok m
    | (_, some e) => .error e

/-- The JSON outcome of `POST /api/recommend`. -/
inductive ApiResult where
  | ok (recs : List Recommendation)
  | clientError (msg : String)
  | serverError

/-- `/api/recommend` (`app.py` lines 22-45): reject a missing or empty
`job_description` with a 400 response; otherwise rank it, turning any
exception into a 500 response. -/
noncomputable def api_recommend (recommender : Model)
    (job_description : String) : ApiResult :=
  if job_description = "" then
    ApiResult.clientError "No job description provided"
  else
    match get_recommendations recommender job_description 10 with
    | .ok recs => ApiResult.ok recs
    | .error _ => ApiResult.serverError

/-! ### Concrete example data

The two-record corpus and query of the worked example in the
specification, plus a two-identical-records corpus used to exhibit the
tie-breaking order. -/

/-- First example catalog row. -/
def recNumerical : Record :=
  { assessmentName := some "Verify Numerical Reasoning"
    jobLevel := some "Entry"
    duration := some "24 minutes"
    remoteTesting := some "Yes" }

/-- Second example catalog row. -/
def recVerbal : Record :=
  { assessmentName := some "Verify Verbal Reasoning"
    jobLevel := some "Entry"
    duration := some "20 minutes"
    remoteTesting := some "No" }

/-- The example two-record corpus. -/
def exampleCsv : List Record := [recNumerical, recVerbal]

/-- The example query. -/
def exampleQuery : String := "numerical reasoning entry level test"

/-- The recommender fitted on the example corpus. -/
noncomputable def exampleModel : Model := (fit Model.new exampleCsv).1

/-- The similarity score the fitted example model assigns to row 0. -/
noncomputable def exScore0 : ℝ :=
  (similarity_scores (fitData exampleCsv) exampleQuery).getD 0 0

/-- The similarity score the fitted example model assigns to row 1. -/
noncomputable def exScore1 : ℝ :=
  (similarity_scores (fitData exampleCsv) exampleQuery).getD 1 0

/-- A corpus of two identical records: both rows receive the same
similarity score for every query. -/
def tieCsv : List Record := [recNumerical, recNumerical]

/-- The recommender fitted on the two-identical-records corpus. -/
noncomputable def tieModel : Model := (fit Model.new tieCsv).1

/-- The score assigned to both rows of the tie corpus for the query
used in the tie example. -/
noncomputable def tieScore : ℝ :=
  (similarity_scores (fitData tieCsv) "numerical reasoning").getD 0 0

/-- Observation helper: the number of recommendations in a successful
API response. -/
def ApiResult.okLength : ApiResult → Option ℕ
  | ApiResult.ok recs => some recs.length
  | _ => none

/-- Analyzer output for the first example document
(`"verify numerical reasoning entry"` after normalization). -/
def exNgrams1 : List Term :=
  ["verify".data, "numerical".data, "reasoning".data, "entry".data,
   "verify numerical".data, "numerical reasoning".data,
   "reasoning entry".data]

/-- Analyzer output for the second example document
(`"verify verbal reasoning entry"` after normalization). -/
def exNgrams2 : List Term :=
  ["verify".data, "verbal".data, "reasoning".data, "entry".data,
   "verify verbal".data, "verbal reasoning".data,
   "reasoning entry".data]

/-- Analyzer output for the normalized example query. -/
def exQgrams : List Term :=
  ["numerical".data, "reasoning".data, "entry".data, "level".data,
   "test".data, "numerical reasoning".data, "reasoning entry".data,
   "entry level".data, "level test".data]

/-- The fitted vocabulary of the example corpus. -/
def exVocab : List Term :=
  ["numerical".data, "verify numerical".data, "numerical reasoning".data,
   "verify".data, "verbal".data, "reasoning".data, "entry".data,
   "verify verbal".data, "verbal reasoning".data, "reasoning entry".data]

/-- The IDF weights fitted on the example corpus. -/
noncomputable def exIdfW : Term → ℝ :=
  fun t => idf 2 (docFreq [exNgrams1, exNgrams2] t)

/-- Unnormalized TF-IDF weights of the example query. -/
noncomputable def exRawQ : Term → ℝ := rawTfidf exVocab exIdfW exQgrams

/-- Unnormalized TF-IDF weights of example document 0. -/
noncomputable def exRaw1 : Term → ℝ := rawTfidf exVocab exIdfW exNgrams1

/-- Unnormalized TF-IDF weights of example document 1. -/
noncomputable def exRaw2 : Term → ℝ := rawTfidf exVocab exIdfW exNgrams2

/-- The (identical) document row of the tie corpus. -/
noncomputable def tieRow : Term → ℝ :=
  l2normalize (vocabulary [exNgrams1, exNgrams1])
    (rawTfidf (vocabulary [exNgrams1, exNgrams1])
      (fun t => idf 2 (docFreq [exNgrams1, exNgrams1] t)) exNgrams1)

/-- The transformed query vector used in the tie example. -/
noncomputable def tieQv : Term → ℝ :=
  transform (fitData tieCsv) (preprocess_text "numerical reasoning")

/-! ## Basic facts about runs, joining and lower-casing -/

theorem data_mk (cs : List Char) : (String.mk cs).data = cs := rfl

theorem joinSpace_cons_cons (t u : List Char) (ts : List (List Char)) :
    joinSpace (t :: u :: ts) = t ++ ' ' :: joinSpace (u :: ts) := rfl

theorem map_eq_self_of {α : Type} {f : α → α} {l : List α}
    (h : ∀ x ∈ l, f x = x) : l.map f = l := by
  induction l with
  | nil => rfl
  | cons a l ih =>
    simp only [List.map_cons, h a (by simp)]
    rw [ih (fun x hx => h x (by simp [hx]))]

theorem runsAux_append_run (sep : Char → Bool) (t : List Char)
    (ht : ∀ c ∈ t, sep c = false) :
    ∀ (cs acc : List Char),
      runsAux sep (t ++ cs) acc = runsAux sep cs (acc ++ t) := by
  induction t with
  | nil => intro cs acc; simp
  | cons c t ih =>
    intro cs acc
    have hc : sep c = false := ht c (by simp)
    have ht' : ∀ x ∈ t, sep x = false := fun x hx => ht x (by simp [hx])
    have e1 : runsAux sep ((c :: t) ++ cs) acc =
        runsAux sep (t ++ cs) (acc ++ [c]) := by
      simp only [List.cons_append, runsAux, hc, Bool.false_eq_true, if_false]
      rfl
    rw [e1, ih ht' cs (acc ++ [c]), List.append_assoc]
    rfl

theorem runsAux_mem (sep : Char → Bool) :
    ∀ (cs acc t : List Char), (∀ c ∈ acc, sep c = false) →
      t ∈ runsAux sep cs acc →
      t ≠ [] ∧ ∀ c ∈ t, sep c = false ∧ (c ∈ acc ∨ c ∈ cs) := by
  intro cs
  induction cs with
  | nil =>
    intro acc t hacc ht
    simp only [runsAux] at ht
    split at ht
    · simp at ht
    · next hemp =>
      rw [List.mem_singleton] at ht
      subst ht
      refine ⟨fun h => hemp (by simp [h]), fun c hc => ⟨hacc c hc, Or.inl hc⟩⟩
  | cons c' cs ih =>
    intro acc t hacc ht
    simp only [runsAux] at ht
    split at ht
    · next hsep =>
      split at ht
      · obtain ⟨hne, hch⟩ := ih [] t (by simp) ht
        refine ⟨hne, fun c hc => ⟨(hch c hc).1, ?_⟩⟩
        rcases (hch c hc).2 with h | h
        · simp at h
        · exact Or.inr (List.mem_cons_of_mem _ h)
      · next hemp =>
        rcases List.mem_cons.mp ht with rfl | ht'
        · exact ⟨fun h => hemp (by simp [h]),
            fun c hc => ⟨hacc c hc, Or.inl hc⟩⟩
        · obtain ⟨hne, hch⟩ := ih [] t (by simp) ht'
          refine ⟨hne, fun c hc => ⟨(hch c hc).1, ?_⟩⟩
          rcases (hch c hc).2 with h | h
          · simp at h
          · exact Or.inr (List.mem_cons_of_mem _ h)
    · next hsep =>
      have hc' : sep c' = false := by
        cases h : sep c' with
        | false => rfl
        | true => exact absurd h hsep
      have hacc' : ∀ c ∈ acc ++ [c'], sep c = false := by
        intro c hc
        rcases List.mem_append.mp hc with h | h
        · exact hacc c h
        · rw [List.mem_singleton] at h; subst h; exact hc'
      obtain ⟨hne, hch⟩ := ih (acc ++ [c']) t hacc' ht
      refine ⟨hne, fun c hc => ?_⟩
      obtain ⟨hsepc, hmem⟩ := hch c hc
      refine ⟨hsepc, ?_⟩
      rcases hmem with h | h
      · rcases List.mem_append.mp h with h | h
        · exact Or.inl h
        · rw [List.mem_singleton] at h; subst h
          exact Or.inr (List.mem_cons_self _ _)
      · exact Or.inr (List.mem_cons_of_mem _ h)

theorem runs_mem (sep : Char → Bool) (cs t : List Char)
    (ht : t ∈ runs sep cs) :
    t ≠ [] ∧ ∀ c ∈ t, sep c = false ∧ c ∈ cs := by
  obtain ⟨hne, hch⟩ := runsAux_mem sep cs [] t (by simp) ht
  refine ⟨hne, fun c hc => ⟨(hch c hc).1, ?_⟩⟩
  rcases (hch c hc).2 with h | h
  · simp at h
  · exact h

theorem runs_joinSpace (sep : Char → Bool) (hsp : sep ' ' = true) :
    ∀ (ts : List (List Char)),
      (∀ t ∈ ts, t ≠ [] ∧ ∀ c ∈ t, sep c = false) →
      runs sep (joinSpace ts) = ts
  | [], _ => by simp [runs, joinSpace, runsAux]
  | [t], h => by
    obtain ⟨hne, hchars⟩ := h t (by simp)
    have h1 := runsAux_append_run sep t hchars [] []
    simp only [List.append_nil, List.nil_append] at h1
    have hemp : t.isEmpty = false := by
      cases t with
      | nil => exact absurd rfl hne
      | cons a l => rfl
    simp only [joinSpace, runs, h1, runsAux, hemp, Bool.false_eq_true,
      if_false]
  | t :: u :: ts, h => by
    obtain ⟨hne, hchars⟩ := h t (by simp)
    have hrest : ∀ x ∈ u :: ts, x ≠ [] ∧ ∀ c ∈ x, sep c = false :=
      fun x hx => h x (by simp [hx])
    have hemp : t.isEmpty = false := by
      cases t with
      | nil => exact absurd rfl hne
      | cons a l => rfl
    have h1 : runsAux sep (t ++ (' ' :: joinSpace (u :: ts))) [] =
        runsAux sep (' ' :: joinSpace (u :: ts)) t := by
      simpa using runsAux_append_run sep t hchars (' ' :: joinSpace (u :: ts)) []
    have h2 : runsAux sep (' ' :: joinSpace (u :: ts)) t =
        t :: runsAux sep (joinSpace (u :: ts)) [] := by
      simp only [runsAux, hsp, if_true, hemp, Bool.false_eq_true, if_false]
    have h3 := runs_joinSpace sep hsp (u :: ts) hrest
    calc runs sep (joinSpace (t :: u :: ts))
        = runsAux sep (t ++ ' ' :: joinSpace (u :: ts)) [] := rfl
      _ = t :: runsAux sep (joinSpace (u :: ts)) [] := by rw [h1, h2]
      _ = t :: (u :: ts) := by
          rw [show runsAux sep (joinSpace (u :: ts)) [] =
            runs sep (joinSpace (u :: ts)) from rfl, h3]

theorem mem_joinSpace (c : Char) :
    ∀ (ts : List (List Char)), c ∈ joinSpace ts →
      c = ' ' ∨ ∃ t ∈ ts, c ∈ t
  | [], h => by simp [joinSpace] at h
  | [t], h => Or.inr ⟨t, by simp, h⟩
  | t :: u :: ts, h => by
    rw [joinSpace_cons_cons] at h
    rcases List.mem_append.mp h with h | h
    · exact Or.inr ⟨t, by simp, h⟩
    · rcases List.mem_cons.mp h with h | h
      · exact Or.inl h
      · rcases mem_joinSpace c (u :: ts) h with h | ⟨x, hx, hcx⟩
        · exact Or.inl h
        · exact Or.inr ⟨x, List.mem_cons_of_mem _ hx, hcx⟩

theorem char_toNat_ofNat {n : ℕ} (h : n < 55296) :
    (Char.ofNat n).toNat = n := by
  rw [Char.ofNat, dif_pos (Or.inl h)]
  rfl

theorem toNat_toLower (c : Char) :
    (Char.toLower c).toNat =
      if 65 ≤ c.toNat ∧ c.toNat ≤ 90 then c.toNat + 32 else c.toNat := by
  by_cases h : 65 ≤ c.toNat ∧ c.toNat ≤ 90
  · rw [if_pos h, Char.toLower]
    rw [if_pos ⟨h.1, h.2⟩]
    exact char_toNat_ofNat (by omega)
  · rw [if_neg h, Char.toLower]
    rw [if_neg h]

theorem toLower_eq_self {c : Char}
    (h : ¬(65 ≤ c.toNat ∧ c.toNat ≤ 90)) : Char.toLower c = c := by
  rw [Char.toLower]
  exact if_neg h

theorem toLower_toLower (c : Char) :
    Char.toLower (Char.toLower c) = Char.toLower c := by
  apply toLower_eq_self
  rw [toNat_toLower]
  split <;> omega

/-! ## C8: idempotence of the text normalizer -/

theorem preprocess_fixed (kept : List (List Char))
    (h : ∀ t ∈ kept,
      t ≠ [] ∧
      (∀ c ∈ t, isSpaceChar c = false ∧
        (isLetterChar c || isSpaceChar c) = true ∧ Char.toLower c = c) ∧
      nltk_stopword_tokens.contains t = false) :
    preprocess_text (String.mk (joinSpace kept)) =
      String.mk (joinSpace kept) := by
  have hlower : (joinSpace kept).map Char.toLower = joinSpace kept := by
    apply map_eq_self_of
    intro c hc
    rcases mem_joinSpace c _ hc with rfl | ⟨t, ht, hct⟩
    · decide
    · exact ((h t ht).2.1 c hct).2.2
  have hfilter : (joinSpace kept).filter
      (fun c => isLetterChar c || isSpaceChar c) = joinSpace kept := by
    rw [List.filter_eq_self]
    intro c hc
    rcases mem_joinSpace c _ hc with rfl | ⟨t, ht, hct⟩
    · decide
    · exact ((h t ht).2.1 c hct).2.1
  have htok : word_tokenize (joinSpace kept) = kept := by
    apply runs_joinSpace isSpaceChar (by decide)
    intro t ht
    exact ⟨(h t ht).1, fun c hc => ((h t ht).2.1 c hc).1⟩
  have hstop : kept.filter (fun t => !(nltk_stopword_tokens.contains t)) =
      kept := by
    rw [List.filter_eq_self]
    intro t ht
    simp only [Bool.not_eq_true']
    exact (h t ht).2.2
  calc preprocess_text (String.mk (joinSpace kept))
      = String.mk (joinSpace ((word_tokenize
          (((joinSpace kept).map Char.toLower).filter
            (fun c => isLetterChar c || isSpaceChar c))).filter
          (fun t => !(nltk_stopword_tokens.contains t)))) := rfl
    _ = String.mk (joinSpace kept) := by rw [hlower, hfilter, htok, hstop]

/-- C8: the text normalizer is idempotent — normalizing an
already-normalized string (lower-casing, stripping non-letters,
tokenizing, stop-word removal, re-joining) leaves it unchanged. -/
theorem C8_preprocess_text_idempotent (s : String) :
    preprocess_text (preprocess_text s) = preprocess_text s := by
  have hshape : preprocess_text s = String.mk (joinSpace
      ((word_tokenize ((s.data.map Char.toLower).filter
        (fun c => isLetterChar c || isSpaceChar c))).filter
        (fun t => !(nltk_stopword_tokens.contains t)))) := rfl
  rw [hshape]
  apply preprocess_fixed
  intro t ht
  have htok : t ∈ runs isSpaceChar ((s.data.map Char.toLower).filter
      (fun c => isLetterChar c || isSpaceChar c)) :=
    (List.mem_filter.mp ht).1
  have hnostop : (!(nltk_stopword_tokens.contains t)) = true :=
    (List.mem_filter.mp ht).2
  obtain ⟨hne, hch⟩ := runs_mem isSpaceChar _ t htok
  refine ⟨hne, ?_, by simpa using hnostop⟩
  intro c hc
  have hcs : isSpaceChar c = false := (hch c hc).1
  have hcstr := (hch c hc).2
  have hpred : (isLetterChar c || isSpaceChar c) = true :=
    (List.mem_filter.mp hcstr).2
  have hclow : c ∈ s.data.map Char.toLower := (List.mem_filter.mp hcstr).1
  obtain ⟨c0, _, hc0⟩ := List.mem_map.mp hclow
  have hfix : Char.toLower c = c := by rw [← hc0, toLower_toLower]
  exact ⟨hcs, hpred, hfix⟩

/-! ## Facts about the ranking pipeline -/

theorem enumFromR_length (i0 : ℕ) (xs : List ℝ) :
    (enumFromR i0 xs).length = xs.length := by
  induction xs generalizing i0 with
  | nil => rfl
  | cons x xs ih => simp [enumFromR, ih]

theorem mem_enumFromR (xs : List ℝ) :
    ∀ (i0 : ℕ) (p : ℕ × ℝ), p ∈ enumFromR i0 xs →
      i0 ≤ p.1 ∧ xs[p.1 - i0]? = some p.2 := by
  induction xs with
  | nil => intro i0 p hp; simp [enumFromR] at hp
  | cons x xs ih =>
    intro i0 p hp
    rcases List.mem_cons.mp hp with rfl | hp'
    · simp
    · obtain ⟨h1, h2⟩ := ih (i0 + 1) p hp'
      refine ⟨by omega, ?_⟩
      have h3 : p.1 - i0 = (p.1 - (i0 + 1)) + 1 := by omega
      rw [h3, List.getElem?_cons_succ]
      exact h2

theorem map_fst_enumFromR (i0 : ℕ) (xs : List ℝ) :
    (enumFromR i0 xs).map Prod.fst = List.range' i0 xs.length := by
  induction xs generalizing i0 with
  | nil => rfl
  | cons x xs ih => simp [enumFromR, ih, List.range'_succ]

theorem argsort_mem_getElem (xs : List ℝ) (p : ℕ × ℝ)
    (hp : p ∈ List.insertionSort argsortRel (enumFromR 0 xs)) :
    xs[p.1]? = some p.2 := by
  have hperm := List.perm_insertionSort argsortRel (enumFromR 0 xs)
  have hmem : p ∈ enumFromR 0 xs := hperm.mem_iff.mp hp
  have h := (mem_enumFromR xs 0 p hmem).2
  simpa using h

theorem sorted_nodup_fst (xs : List ℝ) :
    List.Pairwise (fun a b : ℕ × ℝ => a.1 ≠ b.1)
      (List.insertionSort argsortRel (enumFromR 0 xs)) := by
  have hperm := List.perm_insertionSort argsortRel (enumFromR 0 xs)
  have hnodup : ((enumFromR 0 xs).map Prod.fst).Nodup := by
    rw [map_fst_enumFromR]
    exact List.nodup_range' _ _
  have h2 : ((List.insertionSort argsortRel
      (enumFromR 0 xs)).map Prod.fst).Nodup :=
    ((hperm.map Prod.fst).nodup_iff).mpr hnodup
  have h3 : List.Pairwise (fun a b : ℕ => a ≠ b)
      ((List.insertionSort argsortRel (enumFromR 0 xs)).map Prod.fst) := h2
  exact List.pairwise_map.mp h3

theorem rankedPairs_eq (fd : Fitted) (q : String) (n : ℕ) :
    rankedPairs fd q n =
      ((List.insertionSort argsortRel
        (enumFromR 0 (similarity_scores fd q))).reverse).take n := by
  have h1 : rankedPairs fd q n =
      (((List.insertionSort argsortRel
        (enumFromR 0 (similarity_scores fd q))).reverse).take n).map
        (fun p : ℕ × ℝ => (p.1, (similarity_scores fd q).getD p.1 0)) := by
    rw [rankedPairs, top_indices, argsort, ← List.map_reverse,
      ← List.map_take, List.map_map]
    rfl
  rw [h1]
  have h2 : ∀ p ∈ ((List.insertionSort argsortRel
      (enumFromR 0 (similarity_scores fd q))).reverse).take n,
      (fun p : ℕ × ℝ => (p.1, (similarity_scores fd q).getD p.1 0)) p =
        id p := by
    intro p hp
    have hmem : p ∈ List.insertionSort argsortRel
        (enumFromR 0 (similarity_scores fd q)) := by
      have := (List.take_sublist n _).subset hp
      exact List.mem_reverse.mp this
    have hget := argsort_mem_getElem (similarity_scores fd q) p hmem
    simp only [List.getD_eq_getElem?_getD, hget, Option.getD_some, id]
  rw [List.map_congr_left h2, List.map_id]

theorem rankedPairs_pairwise (fd : Fitted) (q : String) (n : ℕ) :
    List.Pairwise (fun p p' : ℕ × ℝ =>
      p'.2 < p.2 ∨ (p.2 = p'.2 ∧ p'.1 < p.1)) (rankedPairs fd q n) := by
  rw [rankedPairs_eq]
  have hs : List.Pairwise argsortRel
      (List.insertionSort argsortRel
        (enumFromR 0 (similarity_scores fd q))) :=
    List.sorted_insertionSort argsortRel _
  have hne := sorted_nodup_fst (similarity_scores fd q)
  have hcomb := hs.and hne
  have hrev : List.Pairwise (fun a b : ℕ × ℝ =>
      argsortRel b a ∧ b.1 ≠ a.1)
      (List.insertionSort argsortRel
        (enumFromR 0 (similarity_scores fd q))).reverse := by
    rw [List.pairwise_reverse]
    exact hcomb.imp (fun h => ⟨h.1, h.2⟩)
  have htake := List.Pairwise.sublist (List.take_sublist n _) hrev
  refine htake.imp ?_
  rintro a b ⟨hrel, hne'⟩
  rcases hrel with h | ⟨heq, hle⟩
  · exact Or.inl h
  · exact Or.inr ⟨heq.symm, lt_of_le_of_ne hle hne'⟩

theorem buildRecs_ok (df : List Record) :
    ∀ (ps : List (ℕ × ℝ)) (recs : List Recommendation),
      buildRecs df ps = .ok recs →
      List.Forall₂ (fun (p : ℕ × ℝ) (r : Recommendation) =>
        ∃ a, df.get? p.1 = some a ∧ r = mkRec p.1 a p.2) ps recs := by
  intro ps
  induction ps with
  | nil =>
    intro recs h
    simp only [buildRecs, Except.ok.injEq] at h
    rw [← h]
    exact List.Forall₂.nil
  | cons p ps ih =>
    intro recs h
    simp only [buildRecs] at h
    cases hget : df.get? p.1 with
    | none => rw [hget] at h; simp at h
    | some a =>
      rw [hget] at h
      cases hb : buildRecs df ps with
      | error e => rw [hb] at h; simp at h
      | ok recs' =>
        rw [hb] at h
        simp only [Except.ok.injEq] at h
        rw [← h]
        exact List.Forall₂.cons ⟨a, hget, rfl⟩ (ih recs' hb)

theorem forall₂_map_eq {α β γ : Type} (f : α → γ) (g : β → γ)
    {l1 : List α} {l2 : List β}
    (h : List.Forall₂ (fun a b => g b = f a) l1 l2) :
    l2.map g = l1.map f := by
  induction h with
  | nil => rfl
  | cons h1 _ ih => simp [h1, ih]

theorem similarity_scores_length (fd : Fitted) (q : String) :
    (similarity_scores fd q).length = fd.tfidf_matrix.length := by
  simp [similarity_scores]

theorem rankedPairs_length (fd : Fitted) (q : String) (n : ℕ) :
    (rankedPairs fd q n).length = min n fd.tfidf_matrix.length := by
  rw [rankedPairs_eq, List.length_take, List.length_reverse,
    List.length_insertionSort, enumFromR_length, similarity_scores_length]

theorem fitData_matrix_length (csv : List Record) :
    (fitData csv).tfidf_matrix.length = csv.length := by
  simp [fitData, corpusDocs]

theorem fit_success (csv : List Record) (m : Model)
    (hfit : fit Model.new csv = (m, none)) :
    m = { assessments_df := some csv, fitted := some (fitData csv) } := by
  by_cases h : (vocabulary (corpusDocs csv)).isEmpty
  · rw [fit, if_pos h] at hfit
    exact absurd (congrArg Prod.snd hfit) (by simp)
  · rw [fit, if_neg h] at hfit
    exact (congrArg Prod.fst hfit).symm

/-! ## Claim theorems about the general pipeline -/

/-- C1 (amended): every ranked output of `get_recommendations` is
ordered by descending similarity score, and whenever two documents
have equal scores the one with the **larger** original corpus position
appears first (the code reverses an ascending argsort, so ties come
out by descending position); consequently scores are non-increasing
across the returned sequence.  The returned records carry exactly the
scores and (stringified) positions of the ranked pairs, in order. -/
theorem C1_ranking_order (m : Model) (fd : Fitted) (df : List Record)
    (q : String) (n : ℕ) (recs : List Recommendation)
    (hfd : m.fitted = some fd) (hdf : m.assessments_df = some df)
    (hok : get_recommendations m q n = .ok recs) :
    List.Pairwise (fun p p' : ℕ × ℝ =>
        p'.2 < p.2 ∨ (p.2 = p'.2 ∧ p'.1 < p.1)) (rankedPairs fd q n) ∧
    recs.map Recommendation.similarity_score =
      (rankedPairs fd q n).map Prod.snd ∧
    recs.map Recommendation.id =
      (rankedPairs fd q n).map (fun p => toString p.1) ∧
    List.Pairwise (fun a b : Recommendation =>
      b.similarity_score ≤ a.similarity_score) recs := by
  have hok' : buildRecs df (rankedPairs fd q n) = .ok recs := by
    simp only [get_recommendations, hfd, hdf] at hok
    exact hok
  have hfa := buildRecs_ok df _ recs hok'
  have hpair := rankedPairs_pairwise fd q n
  have hscores : recs.map Recommendation.similarity_score =
      (rankedPairs fd q n).map Prod.snd := by
    apply forall₂_map_eq Prod.snd Recommendation.similarity_score
    refine List.Forall₂.imp ?_ hfa
    intro p r h
    obtain ⟨a, -, rfl⟩ := h
    rfl
  have hids : recs.map Recommendation.id =
      (rankedPairs fd q n).map (fun p => toString p.1) := by
    apply forall₂_map_eq (fun p : ℕ × ℝ => toString p.1) Recommendation.id
    refine List.Forall₂.imp ?_ hfa
    intro p r h
    obtain ⟨a, -, rfl⟩ := h
    rfl
  have h1 : List.Pairwise (fun x y : ℝ => y ≤ x)
      ((rankedPairs fd q n).map Prod.snd) := by
    rw [List.pairwise_map]
    refine hpair.imp (fun h => ?_)
    rcases h with h | ⟨h, -⟩
    · exact le_of_lt h
    · exact le_of_eq h.symm
  have h2 : List.Pairwise (fun x y : ℝ => y ≤ x)
      (recs.map Recommendation.similarity_score) := by
    rw [hscores]; exact h1
  exact ⟨hpair, hscores, hids, List.pairwise_map.mp h2⟩

/-- C5: on a model fitted over a corpus of `n` documents, every
successful recommendation list has length `min topN n` — never more
than `topN`, never more than the corpus size, and all of the corpus
when `n < topN` — and an unspecified `top_n` defaults to `10`. -/
theorem C5_topn_bound (csv : List Record) (m : Model) (q : String)
    (top_n : ℕ) (recs : List Recommendation)
    (hfit : fit Model.new csv = (m, none))
    (hok : get_recommendations m q top_n = .ok recs) :
    recs.length = min top_n csv.length ∧
      get_recommendations m q = get_recommendations m q 10 := by
  refine ⟨?_, rfl⟩
  have hm := fit_success csv m hfit
  subst hm
  simp only [get_recommendations] at hok
  have hfa := buildRecs_ok _ _ _ hok
  have hlen := hfa.length_eq
  rw [← hlen, rankedPairs_length, fitData_matrix_length]

/-- C6: saving a model and loading it back yields a model whose
ranking of every query is exactly that of the original in-memory
model. -/
theorem C6_save_load_rank_roundtrip (m m2 : Model) (q : String) (n : ℕ)
    (h : load_model (save_model m) = .ok m2) :
    get_recommendations m2 q n = get_recommendations m q n := by
  have hm : m2 = m := by
    simp only [save_model, load_model, Except.ok.injEq] at h
    rw [← h]
  rw [hm]

/-- C3: after `fit` on an empty corpus the vectorizer raises `empty
vocabulary` and stays unfitted, so every subsequent
`get_recommendations` call fails with the not-fitted condition (and
with no other error). -/
theorem C3_empty_corpus_not_trained :
    (fit Model.new []).2 = some PyErr.emptyVocabulary ∧
    ∀ (q : String) (n : ℕ),
      get_recommendations ((fit Model.new []).1) q n =
        .error PyErr.notFitted := by
  have hempty : (vocabulary (corpusDocs ([] : List Record))).isEmpty =
      true := rfl
  constructor
  · rw [fit, if_pos hempty]
  · intro q n
    rw [fit, if_pos hempty]
    rfl

/-- C4 (amended): `load_model` on an artifact that cannot be
deserialized fails with the deserialization error, and `app.load_model`
propagates that failure instead of rebuilding; only a missing artifact
triggers the fit-and-save rebuild. -/
theorem C4_corrupt_load_propagates (csv : List Record) (m : Model)
    (hfit : fit Model.new csv = (m, none)) :
    load_model Artifact.corrupt = .error PyErr.unpicklingError ∧
    app_load_model (some Artifact.corrupt) csv =
      .error PyErr.unpicklingError ∧
    app_load_model none csv = .ok m ∧
    app_load_model (some Artifact.corrupt) csv ≠
      app_load_model none csv := by
  have hnone : app_load_model none csv = .ok m := by
    simp only [app_load_model, hfit]
  refine ⟨rfl, rfl, hnone, ?_⟩
  rw [hnone]
  intro h
  exact Except.noConfusion h

/-- C9 (amended): `save_model` performs a single direct write of the
bundle to the target path: its file-system trace contains no rename
and no write to any temporary location. -/
theorem C9_save_writes_directly (m : Model) (filepath : String) :
    (save_model_ops m filepath).filter FsOp.isRename = [] ∧
    save_model_ops m filepath =
      [FsOp.write filepath (save_model m)] :=
  ⟨rfl, rfl⟩

/-- C9 counterexample: at a concrete model and the path the program
actually uses, the save trace is one direct write to the final path —
there is no temporary location and no rename, contradicting the
claimed atomic write-then-rename discipline. -/
theorem C9_counterexample :
    save_model_ops Model.new "assessment_recommender.pkl" =
      [FsOp.write "assessment_recommender.pkl" (save_model Model.new)] :=
  rfl

/-- C2 (amended): the caller-facing validation rejects exactly a raw
empty `job_description` with the 400 response, before any ranking; a
non-empty input whose normalization has zero tokens is not rejected
(it is ranked, every document receiving similarity zero). -/
theorem C2_empty_string_rejected (m : Model) :
    api_recommend m "" =
      ApiResult.clientError "No job description provided" := rfl

/-! ## Vector-space algebra -/

theorem dotV_div (vocab : List Term) (u v : Term → ℝ) (c d : ℝ) :
    dotV vocab (fun t => u t / c) (fun t => v t / d) =
      dotV vocab u v / (c * d) := by
  induction vocab with
  | nil => simp [dotV]
  | cons t ts ih =>
    simp only [dotV, List.map_cons, List.sum_cons] at ih ⊢
    rw [ih, div_mul_div_comm, add_div]

theorem dotV_self_nonneg (vocab : List Term) (v : Term → ℝ) :
    0 ≤ dotV vocab v v := by
  induction vocab with
  | nil => simp [dotV]
  | cons t ts ih =>
    simp only [dotV, List.map_cons, List.sum_cons] at ih ⊢
    exact add_nonneg (mul_self_nonneg _) ih

theorem cosine_eq (vocab : List Term) (u v : Term → ℝ) :
    cosine_similarity vocab u v =
      dotV vocab u v /
        (Real.sqrt (dotV vocab u u) * Real.sqrt (dotV vocab v v)) := by
  rw [cosine_similarity]
  exact dotV_div vocab u v _ _

theorem l2normalize_l2normalize (vocab : List Term) (v : Term → ℝ) :
    l2normalize vocab (l2normalize vocab v) = l2normalize vocab v := by
  have hself : dotV vocab (l2normalize vocab v) (l2normalize vocab v) =
      dotV vocab v v /
        (Real.sqrt (dotV vocab v v) * Real.sqrt (dotV vocab v v)) := by
    exact dotV_div vocab v v _ _
  rcases eq_or_lt_of_le (dotV_self_nonneg vocab v) with h0 | hpos
  · funext t
    simp only [l2normalize, ← h0, Real.sqrt_zero, div_zero, zero_div]
  · have hsq : Real.sqrt (dotV vocab v v) * Real.sqrt (dotV vocab v v) =
        dotV vocab v v := Real.mul_self_sqrt (le_of_lt hpos)
    have h1 : dotV vocab (l2normalize vocab v) (l2normalize vocab v) = 1 := by
      rw [hself, hsq, div_self (ne_of_gt hpos)]
    funext t
    simp only [l2normalize, h1, Real.sqrt_one, div_one]

theorem cosine_l2_l2 (vocab : List Term) (a b : Term → ℝ) :
    cosine_similarity vocab (l2normalize vocab a) (l2normalize vocab b) =
      cosine_similarity vocab a b := by
  rw [cosine_similarity, l2normalize_l2normalize, l2normalize_l2normalize]
  rfl

theorem dotV_rawTfidf (vocab : List Term) (w : Term → ℝ)
    (d1 d2 : List Term) :
    ∀ (L : List Term), (∀ t ∈ L, t ∈ vocab) →
      dotV L (rawTfidf vocab w d1) (rawTfidf vocab w d2) =
        (L.map (fun t =>
          ((d1.count t * d2.count t : ℕ) : ℝ) * (w t * w t))).sum := by
  intro L
  induction L with
  | nil => intro _; rfl
  | cons t ts ih =>
    intro hL
    have ht : t ∈ vocab := hL t (by simp)
    have hts : ∀ x ∈ ts, x ∈ vocab := fun x hx => hL x (by simp [hx])
    simp only [dotV, List.map_cons, List.sum_cons] at ih ⊢
    rw [ih hts, rawTfidf, rawTfidf, if_pos ht, if_pos ht]
    have hhead : ((d1.count t : ℝ) * w t) * ((d2.count t : ℝ) * w t) =
        ((d1.count t * d2.count t : ℕ) : ℝ) * (w t * w t) := by
      push_cast
      ring
    rw [hhead]

theorem rawTfidf_nil (vocab : List Term) (w : Term → ℝ) :
    rawTfidf vocab w [] = fun _ => 0 := by
  funext t
  simp [rawTfidf]

theorem dotV_zero_left (vocab : List Term) (v : Term → ℝ) :
    dotV vocab (fun _ => (0 : ℝ)) v = 0 := by
  induction vocab with
  | nil => rfl
  | cons t ts ih =>
    simp only [dotV, List.map_cons, List.sum_cons] at ih ⊢
    rw [ih, zero_mul, add_zero]

theorem l2normalize_zero (vocab : List Term) :
    l2normalize vocab (fun _ => (0 : ℝ)) = fun _ => 0 := by
  funext t
  simp [l2normalize]

theorem cosine_zero_left (vocab : List Term) (v : Term → ℝ) :
    cosine_similarity vocab (fun _ => (0 : ℝ)) v = 0 := by
  rw [cosine_similarity, l2normalize_zero, dotV_zero_left]

/-! ## Evaluating the sort on two-element score lists -/

theorem insertionSort_two_desc (s0 s1 : ℝ) (h : s1 < s0) :
    List.insertionSort argsortRel (enumFromR 0 [s0, s1]) =
      [(1, s1), (0, s0)] := by
  have hrel : ¬ argsortRel (0, s0) (1, s1) := by
    rintro (h1 | ⟨h1, -⟩)
    · exact absurd h1 (not_lt.mpr h.le)
    · exact absurd h1 h.ne'
  simp [enumFromR, List.insertionSort, List.orderedInsert, hrel]

theorem insertionSort_two_tie (s : ℝ) :
    List.insertionSort argsortRel (enumFromR 0 [s, s]) =
      [(0, s), (1, s)] := by
  have hrel : argsortRel (0, s) (1, s) := Or.inr ⟨rfl, by omega⟩
  simp [enumFromR, List.insertionSort, List.orderedInsert, hrel]

/-! ## Concrete IDF values for the two-document examples -/

theorem idf_two_two : idf 2 2 = 1 := by
  rw [idf]
  norm_num

theorem idf_two_one : idf 2 1 = Real.log (3 / 2) + 1 := by
  rw [idf]
  norm_num

theorem idf_two_one_pos : 0 < idf 2 1 := by
  rw [idf_two_one]
  have h := Real.log_pos (by norm_num : (1 : ℝ) < 3 / 2)
  linarith

/-! ## Evaluating the pipeline on the example corpus -/

theorem fitData_vocab (csv : List Record) :
    (fitData csv).vocab = vocabulary (corpusDocs csv) := rfl

theorem fitData_idfW (csv : List Record) :
    (fitData csv).idfW =
      fun t => idf csv.length (docFreq (corpusDocs csv) t) := rfl

theorem fitData_tfidf_matrix (csv : List Record) :
    (fitData csv).tfidf_matrix =
      (corpusDocs csv).map (fun d =>
        l2normalize (vocabulary (corpusDocs csv))
          (rawTfidf (vocabulary (corpusDocs csv))
            (fun t => idf csv.length (docFreq (corpusDocs csv) t)) d)) :=
  rfl

theorem similarity_scores_def (fd : Fitted) (q : String) :
    similarity_scores fd q =
      fd.tfidf_matrix.map (fun row =>
        cosine_similarity fd.vocab
          (transform fd (preprocess_text q)) row) := rfl

theorem dot_eval (d1 d2 : List Term) (prs : List (ℕ × ℕ))
    (hpairs : exVocab.map (fun t =>
      (d1.count t * d2.count t, docFreq [exNgrams1, exNgrams2] t)) = prs) :
    dotV exVocab (rawTfidf exVocab exIdfW d1) (rawTfidf exVocab exIdfW d2) =
      (prs.map (fun pr : ℕ × ℕ =>
        (pr.1 : ℝ) * (idf 2 pr.2 * idf 2 pr.2))).sum := by
  rw [dotV_rawTfidf exVocab exIdfW d1 d2 exVocab (fun t ht => ht),
    ← hpairs, List.map_map]
  rfl

theorem exDot_q1 : dotV exVocab exRawQ exRaw1 =
    2 * (idf 2 1 * idf 2 1) + 3 := by
  rw [exRawQ, exRaw1, dot_eval exQgrams exNgrams1
    [(1, 1), (0, 1), (1, 1), (0, 2), (0, 1), (1, 2), (1, 2), (0, 1),
     (0, 1), (1, 2)] (by decide)]
  simp only [List.map_cons, List.map_nil, List.sum_cons, List.sum_nil]
  rw [idf_two_two]
  push_cast
  ring

theorem exDot_q2 : dotV exVocab exRawQ exRaw2 = 3 := by
  rw [exRawQ, exRaw2, dot_eval exQgrams exNgrams2
    [(0, 1), (0, 1), (0, 1), (0, 2), (0, 1), (1, 2), (1, 2), (0, 1),
     (0, 1), (1, 2)] (by decide)]
  simp only [List.map_cons, List.map_nil, List.sum_cons, List.sum_nil]
  rw [idf_two_two]
  push_cast
  ring

theorem exDot_qq : dotV exVocab exRawQ exRawQ =
    2 * (idf 2 1 * idf 2 1) + 3 := by
  rw [exRawQ, dot_eval exQgrams exQgrams
    [(1, 1), (0, 1), (1, 1), (0, 2), (0, 1), (1, 2), (1, 2), (0, 1),
     (0, 1), (1, 2)] (by decide)]
  simp only [List.map_cons, List.map_nil, List.sum_cons, List.sum_nil]
  rw [idf_two_two]
  push_cast
  ring

theorem exDot_11 : dotV exVocab exRaw1 exRaw1 =
    3 * (idf 2 1 * idf 2 1) + 4 := by
  rw [exRaw1, dot_eval exNgrams1 exNgrams1
    [(1, 1), (1, 1), (1, 1), (1, 2), (0, 1), (1, 2), (1, 2), (0, 1),
     (0, 1), (1, 2)] (by decide)]
  simp only [List.map_cons, List.map_nil, List.sum_cons, List.sum_nil]
  rw [idf_two_two]
  push_cast
  ring

theorem exDot_22 : dotV exVocab exRaw2 exRaw2 =
    3 * (idf 2 1 * idf 2 1) + 4 := by
  rw [exRaw2, dot_eval exNgrams2 exNgrams2
    [(0, 1), (0, 1), (0, 1), (1, 2), (1, 1), (1, 2), (1, 2), (1, 1),
     (1, 1), (1, 2)] (by decide)]
  simp only [List.map_cons, List.map_nil, List.sum_cons, List.sum_nil]
  rw [idf_two_two]
  push_cast
  ring

theorem example_cos_lt :
    cosine_similarity exVocab exRawQ exRaw2 <
      cosine_similarity exVocab exRawQ exRaw1 := by
  rw [cosine_eq, cosine_eq, exDot_q1, exDot_q2, exDot_qq, exDot_11,
    exDot_22]
  have ha := idf_two_one_pos
  have haa : 0 < idf 2 1 * idf 2 1 := mul_pos ha ha
  have h1 : (0 : ℝ) < Real.sqrt (2 * (idf 2 1 * idf 2 1) + 3) :=
    Real.sqrt_pos.mpr (by nlinarith)
  have h2 : (0 : ℝ) < Real.sqrt (3 * (idf 2 1 * idf 2 1) + 4) :=
    Real.sqrt_pos.mpr (by nlinarith)
  exact (div_lt_div_iff_of_pos_right (mul_pos h1 h2)).mpr (by nlinarith)

theorem example_fit : fit Model.new exampleCsv = (exampleModel, none) := by
  have hne : ¬ (vocabulary (corpusDocs exampleCsv)).isEmpty = true := by
    decide
  show fit Model.new exampleCsv = ((fit Model.new exampleCsv).1, none)
  rw [fit, if_neg hne]

theorem example_model_shape :
    exampleModel = ⟨some exampleCsv, some (fitData exampleCsv)⟩ :=
  fit_success exampleCsv exampleModel example_fit

theorem example_matrix : (fitData exampleCsv).tfidf_matrix =
    [l2normalize exVocab exRaw1, l2normalize exVocab exRaw2] := by
  have hdocs : corpusDocs exampleCsv = [exNgrams1, exNgrams2] := by decide
  have hvocab : vocabulary [exNgrams1, exNgrams2] = exVocab := by decide
  rw [fitData_tfidf_matrix, hdocs, hvocab]
  rfl

theorem example_fd_vocab : (fitData exampleCsv).vocab = exVocab := by
  have hdocs : corpusDocs exampleCsv = [exNgrams1, exNgrams2] := by decide
  have hvocab : vocabulary [exNgrams1, exNgrams2] = exVocab := by decide
  rw [fitData_vocab, hdocs, hvocab]

theorem example_fd_idfW : (fitData exampleCsv).idfW = exIdfW := by
  have hdocs : corpusDocs exampleCsv = [exNgrams1, exNgrams2] := by decide
  rw [fitData_idfW, hdocs]
  rfl

theorem example_transform :
    transform (fitData exampleCsv) (preprocess_text exampleQuery) =
      l2normalize exVocab exRawQ := by
  have hq : analyze (preprocess_text exampleQuery) = exQgrams := by decide
  rw [transform, example_fd_vocab, example_fd_idfW, hq]
  rfl

theorem example_scores :
    similarity_scores (fitData exampleCsv) exampleQuery =
      [cosine_similarity exVocab exRawQ exRaw1,
       cosine_similarity exVocab exRawQ exRaw2] := by
  rw [similarity_scores_def, example_matrix]
  simp only [List.map_cons, List.map_nil]
  rw [example_transform, example_fd_vocab, cosine_l2_l2, cosine_l2_l2]

theorem exScore0_eq :
    exScore0 = cosine_similarity exVocab exRawQ exRaw1 := by
  show (similarity_scores (fitData exampleCsv) exampleQuery).getD 0 0 = _
  rw [example_scores]
  rfl

theorem exScore1_eq :
    exScore1 = cosine_similarity exVocab exRawQ exRaw2 := by
  show (similarity_scores (fitData exampleCsv) exampleQuery).getD 1 0 = _
  rw [example_scores]
  rfl

theorem exScore_lt : exScore1 < exScore0 := by
  rw [exScore0_eq, exScore1_eq]
  exact example_cos_lt

theorem example_rankedPairs :
    rankedPairs (fitData exampleCsv) exampleQuery 10 =
      [(0, exScore0), (1, exScore1)] := by
  rw [rankedPairs_eq, example_scores, ← exScore0_eq, ← exScore1_eq,
    insertionSort_two_desc exScore0 exScore1 exScore_lt]
  rfl

theorem example_eval :
    get_recommendations exampleModel exampleQuery 10 =
      .ok [mkRec 0 recNumerical exScore0, mkRec 1 recVerbal exScore1] := by
  rw [example_model_shape]
  show buildRecs exampleCsv
    (rankedPairs (fitData exampleCsv) exampleQuery 10) = _
  rw [example_rankedPairs]
  rfl

/-- C7: on the two-record example corpus with the example query, the
top-ranked recommendation is "Verify Numerical Reasoning" and its
similarity score is strictly greater than that of "Verify Verbal
Reasoning". -/
theorem C7_example_top_result :
    (get_recommendations exampleModel exampleQuery 10).toOption.map
        (fun l => l.map Recommendation.title) =
      some [some "Verify Numerical Reasoning",
        some "Verify Verbal Reasoning"] ∧
    exScore1 < exScore0 ∧
    (get_recommendations exampleModel exampleQuery 10).toOption.map
        (fun l => l.map Recommendation.similarity_score) =
      some [exScore0, exScore1] := by
  refine ⟨?_, exScore_lt, ?_⟩ <;> rw [example_eval] <;> rfl

/-! ## The tie corpus: equal scores come out in descending position
order -/

theorem tie_fit : fit Model.new tieCsv = (tieModel, none) := by
  have hne : ¬ (vocabulary (corpusDocs tieCsv)).isEmpty = true := by
    decide
  show fit Model.new tieCsv = ((fit Model.new tieCsv).1, none)
  rw [fit, if_neg hne]

theorem tie_model_shape :
    tieModel = ⟨some tieCsv, some (fitData tieCsv)⟩ :=
  fit_success tieCsv tieModel tie_fit

theorem tie_matrix : (fitData tieCsv).tfidf_matrix = [tieRow, tieRow] := by
  have hdocs : corpusDocs tieCsv = [exNgrams1, exNgrams1] := by decide
  rw [fitData_tfidf_matrix, hdocs]
  rfl

theorem tie_scores :
    similarity_scores (fitData tieCsv) "numerical reasoning" =
      [tieScore, tieScore] := by
  have hshape : similarity_scores (fitData tieCsv) "numerical reasoning" =
      [cosine_similarity (fitData tieCsv).vocab tieQv tieRow,
       cosine_similarity (fitData tieCsv).vocab tieQv tieRow] := by
    rw [similarity_scores_def, tie_matrix]
    rfl
  have ht : tieScore =
      cosine_similarity (fitData tieCsv).vocab tieQv tieRow := by
    have h0 : tieScore = (similarity_scores (fitData tieCsv)
        "numerical reasoning").getD 0 0 := rfl
    rw [h0, hshape]
    rfl
  rw [hshape, ← ht]

theorem tie_rankedPairs :
    rankedPairs (fitData tieCsv) "numerical reasoning" 10 =
      [(1, tieScore), (0, tieScore)] := by
  rw [rankedPairs_eq, tie_scores, insertionSort_two_tie tieScore]
  rfl

theorem tie_eval :
    get_recommendations tieModel "numerical reasoning" 10 =
      .ok [mkRec 1 recNumerical tieScore, mkRec 0 recNumerical tieScore] := by
  rw [tie_model_shape]
  show buildRecs tieCsv
    (rankedPairs (fitData tieCsv) "numerical reasoning" 10) = _
  rw [tie_rankedPairs]
  rfl

/-- C1 counterexample: on the corpus of two identical records both
rows receive the same similarity score, yet the returned order is
`["1", "0"]` — the row with the larger corpus position comes first,
refuting the claimed ascending-position tie-break. -/
theorem C1_tie_counterexample :
    (get_recommendations tieModel "numerical reasoning" 10).toOption.map
        (fun l => l.map Recommendation.id) = some ["1", "0"] ∧
    (get_recommendations tieModel "numerical reasoning" 10).toOption.map
        (fun l => l.map Recommendation.similarity_score) =
      some [tieScore, tieScore] := by
  constructor <;> rw [tie_eval] <;> rfl

/-- C1 witness: the amended ordering property instantiated on the
fitted example model, with the concrete successful output. -/
theorem C1_ranking_order_witness :
    List.Pairwise (fun p p' : ℕ × ℝ =>
        p'.2 < p.2 ∨ (p.2 = p'.2 ∧ p'.1 < p.1))
      (rankedPairs (fitData exampleCsv) exampleQuery 10) ∧
    ([mkRec 0 recNumerical exScore0, mkRec 1 recVerbal exScore1].map
        Recommendation.similarity_score) =
      (rankedPairs (fitData exampleCsv) exampleQuery 10).map Prod.snd ∧
    ([mkRec 0 recNumerical exScore0, mkRec 1 recVerbal exScore1].map
        Recommendation.id) =
      (rankedPairs (fitData exampleCsv) exampleQuery 10).map
        (fun p => toString p.1) ∧
    List.Pairwise (fun a b : Recommendation =>
        b.similarity_score ≤ a.similarity_score)
      [mkRec 0 recNumerical exScore0, mkRec 1 recVerbal exScore1] :=
  C1_ranking_order exampleModel (fitData exampleCsv) exampleCsv
    exampleQuery 10 [mkRec 0 recNumerical exScore0, mkRec 1 recVerbal exScore1]
    (by rw [example_model_shape]) (by rw [example_model_shape])
    example_eval

/-! ## A non-empty input that normalizes to zero tokens is still
ranked -/

theorem zero_query_scores :
    similarity_scores (fitData exampleCsv) "123" = [0, 0] := by
  have hq : analyze (preprocess_text "123") = [] := by decide
  have htr : transform (fitData exampleCsv) (preprocess_text "123") =
      fun _ => 0 := by
    rw [transform, hq, rawTfidf_nil, l2normalize_zero]
  rw [similarity_scores_def, example_matrix]
  simp only [List.map_cons, List.map_nil]
  rw [htr, cosine_zero_left, cosine_zero_left]

theorem zero_query_rankedPairs :
    rankedPairs (fitData exampleCsv) "123" 10 = [(1, 0), (0, 0)] := by
  rw [rankedPairs_eq, zero_query_scores, insertionSort_two_tie 0]
  rfl

/-- C2 counterexample: the input `"123"` normalizes to zero tokens,
yet the recommendation endpoint does not fail — it returns a
two-element ranked list (every score zero). -/
theorem C2_zero_token_counterexample :
    preprocess_text "123" = "" ∧
    ApiResult.okLength (api_recommend exampleModel "123") = some 2 := by
  refine ⟨by decide, ?_⟩
  have h123 : ¬ ("123" : String) = "" := by decide
  have heval : get_recommendations exampleModel "123" 10 =
      .ok [mkRec 1 recVerbal 0, mkRec 0 recNumerical 0] := by
    rw [example_model_shape]
    show buildRecs exampleCsv
      (rankedPairs (fitData exampleCsv) "123" 10) = _
    rw [zero_query_rankedPairs]
    rfl
  rw [api_recommend, if_neg h123, heval]
  rfl

/-! ## Remaining witnesses -/

/-- C4 counterexample: with the example catalog, a corrupt artifact
makes `app.load_model` fail with the deserialization error, while a
missing artifact leads to a successful rebuild — the two cases are not
treated identically and the failure propagates. -/
theorem C4_corrupt_counterexample :
    app_load_model (some Artifact.corrupt) exampleCsv =
        .error PyErr.unpicklingError ∧
      app_load_model none exampleCsv = .ok exampleModel := by
  refine ⟨rfl, ?_⟩
  simp only [app_load_model, example_fit]

/-- C4 witness: the amended propagation property at the example
catalog. -/
theorem C4_corrupt_load_propagates_witness :
    load_model Artifact.corrupt = .error PyErr.unpicklingError ∧
    app_load_model (some Artifact.corrupt) exampleCsv =
      .error PyErr.unpicklingError ∧
    app_load_model none exampleCsv = .ok exampleModel ∧
    app_load_model (some Artifact.corrupt) exampleCsv ≠
      app_load_model none exampleCsv :=
  C4_corrupt_load_propagates exampleCsv exampleModel example_fit

/-- C5 witness: `topN = 10` against the two-document example corpus
returns exactly both documents, and the default `top_n` is `10`. -/
theorem C5_topn_bound_witness :
    [mkRec 0 recNumerical exScore0, mkRec 1 recVerbal exScore1].length =
        min 10 exampleCsv.length ∧
      get_recommendations exampleModel exampleQuery =
        get_recommendations exampleModel exampleQuery 10 :=
  C5_topn_bound exampleCsv exampleModel exampleQuery 10
    [mkRec 0 recNumerical exScore0, mkRec 1 recVerbal exScore1]
    example_fit example_eval

/-- C6 witness: the save/load round-trip property applied to the
fitted example model. -/
theorem C6_save_load_rank_roundtrip_witness :
    get_recommendations exampleModel exampleQuery 10 =
      get_recommendations exampleModel exampleQuery 10 :=
  C6_save_load_rank_roundtrip exampleModel exampleModel exampleQuery 10
    rfl

/-! ## C10: the remote-testing flag is an exact string comparison -/

/-- C10: in every recommendation produced by a successful
`get_recommendations` call, `remoteTestingAvailable` is `true` exactly
when the underlying row's `Remote Testing` value is the string `"Yes"`
(case-sensitive equality); any other value — `"yes"`, `"YES"`, `"No"`,
`""` or a missing (`NaN`) value — yields `false`, never an error. -/
theorem C10_remote_testing_exact (m : Model) (fd : Fitted)
    (df : List Record) (q : String) (n : ℕ)
    (recs : List Recommendation)
    (hfd : m.fitted = some fd) (hdf : m.assessments_df = some df)
    (hok : get_recommendations m q n = .ok recs) :
    recs.map Recommendation.remoteTestingAvailable =
      (rankedPairs fd q n).map (fun p =>
        decide ((df.getD p.1 default).remoteTesting = some "Yes")) := by
  have hok' : buildRecs df (rankedPairs fd q n) = .ok recs := by
    simp only [get_recommendations, hfd, hdf] at hok
    exact hok
  have hfa := buildRecs_ok df _ recs hok'
  apply forall₂_map_eq
    (fun p : ℕ × ℝ =>
      decide ((df.getD p.1 default).remoteTesting = some "Yes"))
    Recommendation.remoteTestingAvailable
  refine List.Forall₂.imp ?_ hfa
  intro p r h
  obtain ⟨a, hget, rfl⟩ := h
  have hgd : df.getD p.1 default = a := by
    rw [List.getD_eq_getElem?_getD, ← List.get?_eq_getElem?, hget]
    rfl
  rw [hgd]
  show (a.remoteTesting == some "Yes") =
    decide (a.remoteTesting = some "Yes")
  by_cases hx : a.remoteTesting = some "Yes"
  · simp [hx]
  · simp [hx]

/-- C10 witness: the flag equation on the concrete example output —
row 0 carries `"Yes"` (flag true), row 1 carries `"No"` (flag
false). -/
theorem C10_remote_testing_exact_witness :
    [mkRec 0 recNumerical exScore0, mkRec 1 recVerbal exScore1].map
        Recommendation.remoteTestingAvailable =
      (rankedPairs (fitData exampleCsv) exampleQuery 10).map (fun p =>
        decide ((exampleCsv.getD p.1 default).remoteTesting =
          some "Yes")) :=
  C10_remote_testing_exact exampleModel (fitData exampleCsv) exampleCsv
    exampleQuery 10
    [mkRec 0 recNumerical exScore0, mkRec 1 recVerbal exScore1]
    (by rw [example_model_shape]) (by rw [example_model_shape])
    example_eval

end AssessmentRec
